import Mathlib

/-!
Shallow embedding of the sidecar supervisor in
`src/example/src-tauri/src/main.rs` (ex_tauri example application).

The program supervises one child process ("sidecar"): it spawns it
(`start_server`), waits for its TCP endpoint (`check_server_started`),
feeds it a liveness heartbeat over a unix socket (`start_heartbeat`),
forwards its stdout lines to the log, and tears it down on any shutdown
trigger (`kill_sidecar`).

Modelling choices:
* Stateful code is modelled by explicit state passing plus an action
  trace (`Action`, `ProbeAction`, `HbAction`) recording the externally
  observable calls the Rust code makes (lock operations, signals,
  sleeps, connection attempts, writes).
* The environment (is the child alive at a probe? does a TCP connect
  succeed? does a socket write succeed?) is an oracle `Nat → Bool`
  indexed by the attempt number.
* Unbounded `loop`s are given explicit fuel; exhausting the fuel
  returns a "still looping" marker, never a fabricated success.
* The unix `#[cfg(unix)]` branch of `kill_sidecar` is modelled (the
  claims reference its grace-window polling); `kill -0`/`kill -TERM`
  subprocess invocations are instantaneous trace events.
* Rust panics (`.expect`) are modelled as `Except.error`.
-/

namespace ExTauri

/-- The `SidecarProcess` struct of `main.rs` (lines 14-17): an optional
exclusive child handle (`CommandChild`, modelled by a numeric handle id)
and an optional recorded process identifier. -/
structure SidecarProcess where
  child : Option Nat
  pid : Option Nat
deriving Repr, DecidableEq

/-- Observable actions of one `kill_sidecar` invocation.  `lockAcquire`
and `lockRelease` delimit the scope of the `MutexGuard` obtained at line
29.  `sigterm pid` is the `kill -TERM` call, `poll pid` the `kill -0`
liveness probe, `sleep ms` a `thread::sleep`.  `dropKill h` is the
`child.kill()` issued by `impl Drop for SidecarProcess` (line 22);
`kill h` is the explicit fallback `child.kill()` at line 76. -/
inductive Action where
  | lockAcquire : Action
  | lockRelease : Action
  | sigterm : Nat → Action
  | poll : Nat → Action
  | sleep : Nat → Action
  | dropKill : Nat → Action
  | kill : Nat → Action
deriving Repr, DecidableEq

/-- Grace window from line 44: `Duration::from_millis(2000)`. -/
def graceTimeoutMs : Nat := 2000

/-- Poll sleep from line 60: `Duration::from_millis(100)`. -/
def pollSleepMs : Nat := 100

/-- Number of iterations of the grace loop when the child never dies:
the loop body runs while `start.elapsed() < timeout`, and each iteration
sleeps `pollSleepMs`, so iteration `n` starts at elapsed time
`n * pollSleepMs`; with probes modelled as instantaneous the loop runs
`graceTimeoutMs / pollSleepMs = 20` times. -/
def graceIterations : Nat := graceTimeoutMs / pollSleepMs

/-- Outcome of the grace-window polling loop. -/
inductive GraceResult where
  | graceful : Nat → GraceResult
  | timeout : GraceResult
deriving Repr, DecidableEq

/-- The grace-window polling loop of `kill_sidecar` (lines 47-61):
while elapsed time is below the window, probe liveness with `kill -0`;
if the probe reports the process gone, return gracefully; otherwise
sleep 100 ms and retry.  `alive i` is the result of the `i`-th probe;
the fuel argument counts the iterations remaining before the window is
exhausted. -/
def graceLoop (pid : Nat) (alive : Nat → Bool) : Nat → Nat → List Action × GraceResult
  | _, 0 => ([], GraceResult.timeout)
  | idx, fuel+1 =>
    if alive idx then
      let r := graceLoop pid alive (idx+1) fuel
      (Action.poll pid :: Action.sleep pollSleepMs :: r.1, r.2)
    else
      ([Action.poll pid], GraceResult.graceful idx)

/-- `impl Drop for SidecarProcess` (lines 19-25): when the value goes
out of scope, kill the child handle if it was not already taken. -/
def SidecarProcess.dropActions (p : SidecarProcess) : List Action :=
  match p.child with
  | some h => [Action.dropKill h]
  | none => []

/-- `kill_sidecar` (lines 27-81), unix configuration.
`stateOk` models `app.try_state::<AppState>()` succeeding, `lockOk`
models `state.sidecar_child.lock()` returning `Ok` (a poisoned mutex
still locks and unlocks, but its guard is discarded by the `if let`),
`slot` is the current content of the `Mutex<Option<SidecarProcess>>`,
and `alive` is the liveness oracle for the grace-loop probes.
Returns the new slot content and the trace of observable actions.
The `MutexGuard` is alive from line 29 to the end of its scope, so the
whole termination protocol happens between `lockAcquire` and
`lockRelease`; on the graceful early `return` (line 56) the local
`process` is dropped before the guard, emitting the `Drop` kill. -/
def kill_sidecar (stateOk lockOk : Bool) (slot : Option SidecarProcess)
    (alive : Nat → Bool) : Option SidecarProcess × List Action :=
  if stateOk then
    if lockOk then
      match slot with
      | none => (none, [Action.lockAcquire, Action.lockRelease])
      | some process =>
        match process.pid with
        | some pid =>
          let lr := graceLoop pid alive 0 graceIterations
          match lr.2 with
          | GraceResult.graceful _ =>
            (none, Action.lockAcquire :: Action.sigterm pid :: lr.1
                ++ process.dropActions ++ [Action.lockRelease])
          | GraceResult.timeout =>
            match process.child with
            | some h =>
              (none, Action.lockAcquire :: Action.sigterm pid :: lr.1
                  ++ [Action.kill h, Action.lockRelease])
            | none =>
              (none, Action.lockAcquire :: Action.sigterm pid :: lr.1
                  ++ [Action.lockRelease])
        | none =>
          match process.child with
          | some h => (none, [Action.lockAcquire, Action.kill h, Action.lockRelease])
          | none => (none, [Action.lockAcquire, Action.lockRelease])
    else (slot, [Action.lockAcquire, Action.lockRelease])
  else (slot, [])

/-- A sequence of shutdown triggers, each running `kill_sidecar` to
completion before the next starts (the mutex serialises concurrent
invocations; see the lock-scope note on `kill_sidecar`).  Each trigger
may observe the environment differently, hence one liveness oracle per
trigger.  Returns the final slot and the per-trigger traces. -/
def runTriggers (slot : Option SidecarProcess) :
    List (Nat → Bool) → Option SidecarProcess × List (List Action)
  | [] => (slot, [])
  | alive :: rest =>
    let r := kill_sidecar true true slot alive
    let rr := runTriggers r.1 rest
    (rr.1, r.2 :: rr.2)

/-- Actions of the termination protocol proper (signal, probe, wait,
kill), as opposed to lock bookkeeping. -/
def isProtocolAction : Action → Bool
  | Action.sigterm _ => true
  | Action.poll _ => true
  | Action.sleep _ => true
  | Action.dropKill _ => true
  | Action.kill _ => true
  | _ => false

/-- Actions that invoke `child.kill()` on the exclusive handle (either
from the `Drop` impl or from the explicit fallback). -/
def isKill : Action → Bool
  | Action.dropKill _ => true
  | Action.kill _ => true
  | _ => false

/-- Lock bookkeeping actions. -/
def isLockAction : Action → Bool
  | Action.lockAcquire => true
  | Action.lockRelease => true
  | _ => false

/-- Number of `child.kill()` invocations in a trace. -/
def killCount (tr : List Action) : Nat := tr.countP (fun a => isKill a)

/-- Number of termination-protocol actions in a trace. -/
def protocolCount (tr : List Action) : Nat := tr.countP (fun a => isProtocolAction a)

/-- Milliseconds slept by a single action. -/
def sleepMs : Action → Nat
  | Action.sleep n => n
  | _ => 0

/-- Total milliseconds slept along a trace. -/
def sleepSum (tr : List Action) : Nat := (tr.map sleepMs).sum

/-- Effect of one action on the number of locks held. -/
def lockStep (d : Nat) (a : Action) : Nat :=
  match a with
  | Action.lockAcquire => d + 1
  | Action.lockRelease => d - 1
  | _ => d

/-- Number of locks held after executing a trace. -/
def lockDepth (tr : List Action) : Nat := tr.foldl lockStep 0

/-- Spec-side reading of the lock discipline: every termination-protocol
action in the trace executes while no lock is held. -/
def runsOutsideLock (tr : List Action) : Prop :=
  ∀ i : Nat, ∀ a : Action, tr.get? i = some a → isProtocolAction a = true →
    lockDepth (tr.take i) = 0

/-- Trace of the grace loop when every probe finds the child alive:
`fuel` poll/sleep pairs, ending with the window exhausted. -/
def timeoutTrace (pid : Nat) : Nat → List Action
  | 0 => []
  | f+1 => Action.poll pid :: Action.sleep pollSleepMs :: timeoutTrace pid f

/-- Events received from the sidecar command channel (`CommandEvent`):
either a stdout line (as raw bytes) or any other event kind
(stderr, termination, ...), which the forwarding task ignores. -/
inductive CommandEvent where
  | stdout : List Nat → CommandEvent
  | other : CommandEvent
deriving Repr, DecidableEq

/-- The output-forwarding task of `start_server` (lines 160-167):
receive events until the channel closes; for each `Stdout` event decode
the bytes (`String::from_utf8_lossy`, modelled by the `decode`
parameter) and print the resulting line; ignore other events. -/
def forwardLogs (decode : List Nat → String) : List CommandEvent → List String
  | [] => []
  | CommandEvent.stdout bs :: rest => decode bs :: forwardLogs decode rest
  | CommandEvent.other :: rest => forwardLogs decode rest

/-- Outcome of `sidecar_command.spawn()` (line 142): success yields the
child pid, the exclusive handle and the stream of command events; a
failure carries the panic message of the `.expect` call. -/
inductive SpawnResult where
  | ok : Nat → Nat → List CommandEvent → SpawnResult
  | err : String → SpawnResult

/-- `start_server` (lines 136-168): spawn the sidecar; a spawn failure
panics out of setup (modelled as `Except.error`); on success store the
pid and the exclusive handle in the slot and run the forwarding task.
Returns the populated slot and the forwarded log lines. -/
def start_server (decode : List Nat → String) (spawn : SpawnResult) :
    Except String (Option SidecarProcess × List String) :=
  match spawn with
  | SpawnResult.err m => Except.error m
  | SpawnResult.ok pid h evs =>
    Except.ok (some { child := some h, pid := some pid }, forwardLogs decode evs)

/-- Observable actions of the readiness prober. -/
inductive ProbeAction where
  | connectTry : Bool → ProbeAction
  | sleep : Nat → ProbeAction
deriving Repr, DecidableEq

/-- Probe retry interval from line 171: `Duration::from_millis(200)`. -/
def probeSleepMs : Nat := 200

/-- `check_server_started` (lines 170-185): loop forever; attempt a TCP
connection to `localhost:4000`; on success break, on failure sleep the
interval and retry.  `connects i` is the outcome of the `i`-th attempt;
the fuel bounds the unrolling and the second component is `true` iff the
loop exited (a connection succeeded) within the fuel — `false` means
the function is still looping, never that it returned. -/
def check_server_started (connects : Nat → Bool) : Nat → Nat → List ProbeAction × Bool
  | 0, _ => ([], false)
  | fuel+1, idx =>
    if connects idx then ([ProbeAction.connectTry true], true)
    else
      let r := check_server_started connects fuel (idx+1)
      (ProbeAction.connectTry false :: ProbeAction.sleep probeSleepMs :: r.1, r.2)

/-- Trace of a readiness probe that fails `n` times then succeeds:
each failure is followed by a sleep of the fixed interval, and the
successful connect ends the wait. -/
def probeTrace : Nat → List ProbeAction
  | 0 => [ProbeAction.connectTry true]
  | n+1 => ProbeAction.connectTry false :: ProbeAction.sleep probeSleepMs :: probeTrace n

/-- Observable actions of the heartbeat task. -/
inductive HbAction where
  | connectTry : Bool → HbAction
  | sleep : Nat → HbAction
  | writeByte : Nat → Bool → HbAction
deriving Repr, DecidableEq

/-- Heartbeat interval from line 195 (and the connect retry sleep at
line 203): `Duration::from_millis(100)`. -/
def hbIntervalMs : Nat := 100

/-- The marker byte written per heartbeat: `b"h"`. -/
def hbByte : Nat := 104

/-- Connect phase of `start_heartbeat` (lines 198-206): try to connect
to the unix socket; on failure sleep 100 ms and retry; on success stop.
`connectOk i` is the outcome of the `i`-th attempt; the second component
is `true` iff the connection succeeded within the fuel. -/
def heartbeatConnectLoop (connectOk : Nat → Bool) : Nat → Nat → List HbAction × Bool
  | 0, _ => ([], false)
  | fuel+1, idx =>
    if connectOk idx then ([HbAction.connectTry true], true)
    else
      let r := heartbeatConnectLoop connectOk fuel (idx+1)
      (HbAction.connectTry false :: HbAction.sleep hbIntervalMs :: r.1, r.2)

/-- Write phase of `start_heartbeat` (lines 210-222): write the marker
byte; on success sleep the interval and loop; on the first failure break
out of the loop (the task ends).  `writeOk i` is the outcome of the
`i`-th write; the second component is `true` iff the task terminated
(a write failed) within the fuel. -/
def heartbeatWriteLoop (writeOk : Nat → Bool) : Nat → Nat → List HbAction × Bool
  | 0, _ => ([], false)
  | fuel+1, idx =>
    if writeOk idx then
      let r := heartbeatWriteLoop writeOk fuel (idx+1)
      (HbAction.writeByte hbByte true :: HbAction.sleep hbIntervalMs :: r.1, r.2)
    else ([HbAction.writeByte hbByte false], true)

/-- `start_heartbeat` (lines 187-224): the spawned thread first runs the
connect loop, then — once connected — the write loop.  The second
component is `true` iff the task terminated (first write failure). -/
def start_heartbeat (connectOk writeOk : Nat → Bool) (cFuel wFuel : Nat) :
    List HbAction × Bool :=
  let c := heartbeatConnectLoop connectOk cFuel 0
  if c.2 then
    let w := heartbeatWriteLoop writeOk wFuel 0
    (c.1 ++ w.1, w.2)
  else (c.1, false)

/-- Trace of a heartbeat connect phase that fails `m` times then
succeeds, sleeping the interval after each failure. -/
def hbConnectTrace : Nat → List HbAction
  | 0 => [HbAction.connectTry true]
  | m+1 => HbAction.connectTry false :: HbAction.sleep hbIntervalMs :: hbConnectTrace m

/-- Trace of a heartbeat write phase with `n` successful one-byte
writes, each followed by an interval sleep, ending at the first failed
write. -/
def hbWriteTrace : Nat → List HbAction
  | 0 => [HbAction.writeByte hbByte false]
  | n+1 => HbAction.writeByte hbByte true :: HbAction.sleep hbIntervalMs :: hbWriteTrace n

/-- State of the application once setup (lines 95-100) has finished:
the populated slot, the forwarded logs, the readiness-probe trace, and
the facts that the heartbeat task was started and the run loop (with its
shutdown triggers) became active. -/
structure RunningApp where
  slot : Option SidecarProcess
  logs : List String
  readinessTrace : List ProbeAction
  heartbeatStarted : Bool
  triggersRegistered : Bool
deriving Repr, DecidableEq

/-- Application startup: the setup closure (lines 95-100) runs
`start_server`, then `check_server_started`, then `start_heartbeat`; a
spawn failure panics out of setup and aborts startup (`Except.error`)
before the readiness wait, the heartbeat task, or the running app with
its registered triggers exist.  `Except.ok none` means startup is still
blocked in the readiness wait after `fuel` probe attempts. -/
def appStartup (decode : List Nat → String) (spawn : SpawnResult)
    (connects : Nat → Bool) (fuel : Nat) :
    Except String (Option RunningApp) :=
  match start_server decode spawn with
  | Except.error m => Except.error m
  | Except.ok sl =>
    let probe := check_server_started connects fuel 0
    if probe.2 then
      Except.ok (some { slot := sl.1, logs := sl.2, readinessTrace := probe.1,
                        heartbeatStarted := true, triggersRegistered := true })
    else Except.ok none

/-! ### Lemmas about the grace loop -/

lemma graceLoop_mem (pid : Nat) (alive : Nat → Bool) :
    ∀ fuel idx a, a ∈ (graceLoop pid alive idx fuel).1 →
      a = Action.poll pid ∨ a = Action.sleep pollSleepMs := by
  intro fuel
  induction fuel with
  | zero => intro idx a h; simp [graceLoop] at h
  | succ f ih =>
    intro idx a h
    cases hc : alive idx with
    | true =>
      simp only [graceLoop, hc, if_true, List.mem_cons] at h
      rcases h with h | h | h
      · exact Or.inl h
      · exact Or.inr h
      · exact ih (idx+1) a h
    | false =>
      simp [graceLoop, hc] at h
      exact Or.inl h

lemma graceLoop_killCount (pid : Nat) (alive : Nat → Bool) (fuel idx : Nat) :
    killCount (graceLoop pid alive idx fuel).1 = 0 := by
  rw [killCount, List.countP_eq_zero]
  intro a ha
  rcases graceLoop_mem pid alive fuel idx a ha with h | h <;> subst h <;> simp [isKill]

lemma graceLoop_lockFree (pid : Nat) (alive : Nat → Bool) (fuel idx : Nat) :
    ∀ a ∈ (graceLoop pid alive idx fuel).1, isLockAction a = false := by
  intro a ha
  rcases graceLoop_mem pid alive fuel idx a ha with h | h <;> subst h <;> rfl

lemma graceLoop_all_alive (pid : Nat) (alive : Nat → Bool) :
    ∀ fuel idx, (∀ i, idx ≤ i → i < idx + fuel → alive i = true) →
      graceLoop pid alive idx fuel = (timeoutTrace pid fuel, GraceResult.timeout) := by
  intro fuel
  induction fuel with
  | zero => intro idx _; rfl
  | succ f ih =>
    intro idx h
    have ha : alive idx = true := h idx le_rfl (by omega)
    have hrest := ih (idx+1) (fun i h1 h2 => h i (by omega) (by omega))
    simp [graceLoop, ha, hrest, timeoutTrace]

lemma timeoutTrace_killCount (pid : Nat) : ∀ f, killCount (timeoutTrace pid f) = 0 := by
  intro f
  induction f with
  | zero => rfl
  | succ f ih => simp [timeoutTrace, killCount, List.countP_cons, isKill] at ih ⊢; exact ih

lemma timeoutTrace_sleepSum (pid : Nat) : ∀ f, sleepSum (timeoutTrace pid f) = f * pollSleepMs := by
  intro f
  induction f with
  | zero => rfl
  | succ f ih =>
    simp [timeoutTrace, sleepSum, sleepMs, Nat.succ_mul] at ih ⊢
    omega

lemma timeoutTrace_lockFree (pid : Nat) :
    ∀ f, ∀ a ∈ timeoutTrace pid f, isLockAction a = false := by
  intro f
  induction f with
  | zero => intro a ha; simp [timeoutTrace] at ha
  | succ f ih =>
    intro a ha
    simp only [timeoutTrace, List.mem_cons] at ha
    rcases ha with h | h | h
    · subst h; rfl
    · subst h; rfl
    · exact ih a h

/-! ### Lemmas about the shutdown coordinator -/

lemma kill_sidecar_empty_slot (alive : Nat → Bool) :
    kill_sidecar true true none alive = (none, [Action.lockAcquire, Action.lockRelease]) := rfl

lemma kill_sidecar_slot_none (p : SidecarProcess) (alive : Nat → Bool) :
    (kill_sidecar true true (some p) alive).1 = none := by
  unfold kill_sidecar
  rcases hp : p.pid with _ | pid
  · rcases hc : p.child with _ | h <;> simp [hp, hc]
  · rcases hg : (graceLoop pid alive 0 graceIterations).2 with k | _
    · simp [hp, hg]
    · rcases hc : p.child with _ | h <;> simp [hp, hg, hc]

lemma runTriggers_empty :
    ∀ os, runTriggers none os =
      (none, os.map (fun _ => [Action.lockAcquire, Action.lockRelease])) := by
  intro os
  induction os with
  | nil => rfl
  | cons o os ih => simp [runTriggers, kill_sidecar_empty_slot, ih]

lemma kill_sidecar_killCount_one (p : SidecarProcess) (h : Nat) (hch : p.child = some h)
    (alive : Nat → Bool) :
    killCount (kill_sidecar true true (some p) alive).2 = 1 := by
  unfold kill_sidecar
  rcases hp : p.pid with _ | pid
  · simp [hp, hch, killCount, List.countP_cons, isKill]
  · rcases hg : (graceLoop pid alive 0 graceIterations).2 with k | _
    · simp [hp, hg, killCount, List.countP_cons, List.countP_append, isKill,
        SidecarProcess.dropActions, hch]
      intro a ha
      rcases graceLoop_mem pid alive graceIterations 0 a ha with hh | hh <;> subst hh <;> rfl
    · simp [hp, hg, hch, killCount, List.countP_cons, List.countP_append, isKill]
      intro a ha
      rcases graceLoop_mem pid alive graceIterations 0 a ha with hh | hh <;> subst hh <;> rfl

/-! ### Lemmas about lock depth -/

lemma foldl_lockStep_id (l : List Action) (hf : ∀ a ∈ l, isLockAction a = false) :
    ∀ d, l.foldl lockStep d = d := by
  induction l with
  | nil => intro d; rfl
  | cons a l ih =>
    intro d
    have ha : isLockAction a = false := hf a (List.mem_cons_self a l)
    have hstep : lockStep d a = d := by
      cases a <;> first | rfl | simp [isLockAction] at ha
    rw [List.foldl_cons, hstep]
    exact ih (fun a ha2 => hf a (List.mem_cons_of_mem _ ha2)) d

lemma lockDepth_take_inside (mid : List Action) (hmid : ∀ a ∈ mid, isLockAction a = false) :
    ∀ i a, (Action.lockAcquire :: (mid ++ [Action.lockRelease])).get? i = some a →
      isProtocolAction a = true →
      lockDepth ((Action.lockAcquire :: (mid ++ [Action.lockRelease])).take i) = 1 := by
  intro i a hget hprot
  match i with
  | 0 =>
    rw [List.get?_cons_zero] at hget
    cases hget
    simp [isProtocolAction] at hprot
  | Nat.succ j =>
    rw [List.get?_cons_succ] at hget
    rcases Nat.lt_or_ge j mid.length with hj | hj
    · have htake : (mid ++ [Action.lockRelease]).take j = mid.take j :=
        List.take_append_of_le_length (Nat.le_of_lt hj)
      rw [List.take_succ_cons, htake]
      show (Action.lockAcquire :: mid.take j).foldl lockStep 0 = 1
      rw [List.foldl_cons]
      exact foldl_lockStep_id (mid.take j)
        (fun a ha => hmid a (List.take_subset j mid ha)) 1
    · have hget2 : ([Action.lockRelease] : List Action).get? (j - mid.length) = some a := by
        rw [← List.get?_append_right hj]
        exact hget
      rcases Nat.lt_or_ge (j - mid.length) 1 with hj2 | hj2
      · interval_cases h2 : j - mid.length
        · rw [List.get?_cons_zero] at hget2
          cases hget2
          simp [isProtocolAction] at hprot
      · rw [List.get?_eq_none.mpr (by simpa using hj2)] at hget2
        cases hget2

/-- Shape of the `kill_sidecar` trace on a populated slot: one lock
acquisition, the termination protocol, one lock release — so the guard
spans the whole protocol. -/
lemma kill_sidecar_trace_shape (p : SidecarProcess) (alive : Nat → Bool) :
    ∃ mid, (kill_sidecar true true (some p) alive).2 =
        Action.lockAcquire :: (mid ++ [Action.lockRelease]) ∧
      ∀ a ∈ mid, isLockAction a = false := by
  have hdrop : ∀ a ∈ p.dropActions, isLockAction a = false := by
    intro a ha
    unfold SidecarProcess.dropActions at ha
    rcases hc : p.child with _ | hh <;> rw [hc] at ha <;> simp at ha
    subst ha; rfl
  unfold kill_sidecar
  rcases hp : p.pid with _ | pid
  · rcases hc : p.child with _ | h
    · exact ⟨[], by simp [hp, hc], by simp⟩
    · refine ⟨[Action.kill h], by simp [hp, hc], ?_⟩
      intro a ha; simp at ha; subst ha; rfl
  · rcases hg : (graceLoop pid alive 0 graceIterations).2 with k | _
    · refine ⟨Action.sigterm pid :: ((graceLoop pid alive 0 graceIterations).1
        ++ p.dropActions), ?_, ?_⟩
      · simp [hp, hg]
      · intro a ha
        simp only [List.mem_cons, List.mem_append] at ha
        rcases ha with h | h | h
        · subst h; rfl
        · exact graceLoop_lockFree pid alive graceIterations 0 a h
        · exact hdrop a h
    · rcases hc : p.child with _ | h
      · refine ⟨Action.sigterm pid :: (graceLoop pid alive 0 graceIterations).1, ?_, ?_⟩
        · simp [hp, hg, hc]
        · intro a ha
          simp only [List.mem_cons] at ha
          rcases ha with h | h
          · subst h; rfl
          · exact graceLoop_lockFree pid alive graceIterations 0 a h
      · refine ⟨Action.sigterm pid :: ((graceLoop pid alive 0 graceIterations).1
          ++ [Action.kill h]), ?_, ?_⟩
        · simp [hp, hg, hc]
        · intro a ha
          simp only [List.mem_cons, List.mem_append] at ha
          rcases ha with h | h | h
          · subst h; rfl
          · exact graceLoop_lockFree pid alive graceIterations 0 a h
          · simp at h; subst h; rfl

/-! ### Claim theorems -/

/-- C1: for every sequence of N ≥ 1 invocations of `kill_sidecar` after
the slot has been populated (child handle present), the termination
protocol's irreversible actions run exactly once: the first invocation
takes the `SidecarProcess` and issues exactly one `child.kill()`, every
later invocation observes the empty slot and performs no protocol
action, and the slot is empty from the first teardown on. -/
theorem kill_sidecar_exactly_once (p : SidecarProcess) (h : Nat) (hch : p.child = some h)
    (alive : Nat → Bool) (rest : List (Nat → Bool)) :
    runTriggers (some p) (alive :: rest) =
      (none, (kill_sidecar true true (some p) alive).2 ::
        rest.map (fun _ => [Action.lockAcquire, Action.lockRelease])) ∧
    killCount (kill_sidecar true true (some p) alive).2 = 1 ∧
    ∀ tr ∈ rest.map (fun _ => ([Action.lockAcquire, Action.lockRelease] : List Action)),
      protocolCount tr = 0 := by
  refine ⟨?_, kill_sidecar_killCount_one p h hch alive, ?_⟩
  · simp [runTriggers, kill_sidecar_slot_none p alive, runTriggers_empty]
  · intro tr htr
    simp only [List.mem_map] at htr
    obtain ⟨o, _, rfl⟩ := htr
    rfl

theorem kill_sidecar_exactly_once_witness :
    killCount (kill_sidecar true true (some { child := some 5, pid := some 7 })
      (fun _ => false)).2 = 1 :=
  (kill_sidecar_exactly_once { child := some 5, pid := some 7 } 5 rfl
    (fun _ => false) [fun _ => false]).2.1

/-- C2 counterexample: in the run where the child dies at the first
probe, the graceful signal executes at lock depth 1 — the mutex guard
is held across the termination protocol, so the protocol does not run
with the lock released as claimed. -/
theorem kill_sidecar_lock_claim_cex :
    ¬ runsOutsideLock (kill_sidecar true true
      (some { child := some 5, pid := some 7 }) (fun _ => false)).2 := by
  intro hr
  exact absurd (hr 1 (Action.sigterm 7) (by decide) (by decide)) (by decide)

/-- C2 amended: the mutex guard is held across the entire termination
protocol — every protocol action (graceful signal, liveness poll, grace
sleep, forced kill) of a `kill_sidecar` run on a populated slot executes
at lock depth 1, the lock being released only when the coordinator
returns. -/
theorem kill_sidecar_lock_held_across_protocol (p : SidecarProcess) (alive : Nat → Bool)
    (i : Nat) (a : Action)
    (hget : (kill_sidecar true true (some p) alive).2.get? i = some a)
    (hprot : isProtocolAction a = true) :
    lockDepth ((kill_sidecar true true (some p) alive).2.take i) = 1 := by
  obtain ⟨mid, heq, hmid⟩ := kill_sidecar_trace_shape p alive
  rw [heq] at hget ⊢
  exact lockDepth_take_inside mid hmid i a hget hprot

theorem kill_sidecar_lock_held_witness :
    lockDepth ((kill_sidecar true true (some { child := some 5, pid := some 7 })
      (fun _ => false)).2.take 1) = 1 :=
  kill_sidecar_lock_held_across_protocol { child := some 5, pid := some 7 }
    (fun _ => false) 1 (Action.sigterm 7) (by decide) (by decide)

/-- C3 counterexample: with the child dead at the very first liveness
probe (graceful exit well inside the grace window), the coordinator's
early return still drops the `SidecarProcess` with its handle untaken,
and `impl Drop for SidecarProcess` invokes `child.kill()` — a kill via
the exclusive handle executes even on the graceful path. -/
theorem kill_sidecar_graceful_kill_cex :
    (graceLoop 7 (fun _ => false) 0 graceIterations).2 = GraceResult.graceful 0 ∧
    Action.dropKill 5 ∈ (kill_sidecar true true
      (some { child := some 5, pid := some 7 }) (fun _ => false)).2 ∧
    killCount (kill_sidecar true true
      (some { child := some 5, pid := some 7 }) (fun _ => false)).2 = 1 := by
  decide

/-- C3 amended: when the child exits on its own within the grace window
(the grace loop returns gracefully), the explicit post-window forced
kill fallback (line 76) never executes; the only handle kill in the
trace is the one issued by the `SidecarProcess` destructor on the early
return, addressed to the already-dead process. -/
theorem kill_sidecar_graceful_no_fallback (p : SidecarProcess) (pid h k : Nat)
    (alive : Nat → Bool) (hpid : p.pid = some pid) (hch : p.child = some h)
    (hg : (graceLoop pid alive 0 graceIterations).2 = GraceResult.graceful k) :
    (∀ h2 : Nat, Action.kill h2 ∉ (kill_sidecar true true (some p) alive).2) ∧
    Action.dropKill h ∈ (kill_sidecar true true (some p) alive).2 := by
  have htr : (kill_sidecar true true (some p) alive).2 =
      Action.lockAcquire :: Action.sigterm pid ::
        ((graceLoop pid alive 0 graceIterations).1
          ++ [Action.dropKill h, Action.lockRelease]) := by
    unfold kill_sidecar
    simp [hpid, hg, SidecarProcess.dropActions, hch]
  constructor
  · intro h2 hmem
    rw [htr] at hmem
    simp at hmem
    rcases graceLoop_mem pid alive graceIterations 0 _ hmem with h3 | h3 <;> cases h3
  · rw [htr]
    simp

theorem kill_sidecar_graceful_no_fallback_witness :
    Action.dropKill 5 ∈ (kill_sidecar true true
      (some { child := some 5, pid := some 7 }) (fun _ => false)).2 :=
  (kill_sidecar_graceful_no_fallback { child := some 5, pid := some 7 } 7 5 0
    (fun _ => false) rfl rfl (by decide)).2

/-- C4: when the child is alive at every liveness poll throughout the
grace window, the grace loop runs all 20 poll/sleep iterations (2000 ms
of sleeps, the full window), and forced termination via the exclusive
handle executes exactly once, positioned after the whole window's worth
of polling — never before. -/
theorem kill_sidecar_timeout_forced_once (p : SidecarProcess) (pid h : Nat)
    (alive : Nat → Bool) (hpid : p.pid = some pid) (hch : p.child = some h)
    (halive : ∀ i, i < graceIterations → alive i = true) :
    kill_sidecar true true (some p) alive =
      (none, Action.lockAcquire :: Action.sigterm pid ::
        (timeoutTrace pid graceIterations ++ [Action.kill h, Action.lockRelease])) ∧
    killCount (kill_sidecar true true (some p) alive).2 = 1 ∧
    sleepSum (Action.lockAcquire :: Action.sigterm pid ::
      timeoutTrace pid graceIterations) = graceTimeoutMs := by
  have hgl := graceLoop_all_alive pid alive graceIterations 0
    (fun i h1 h2 => halive i (by omega))
  refine ⟨?_, kill_sidecar_killCount_one p h hch alive, ?_⟩
  · unfold kill_sidecar
    simp [hpid, hch, hgl]
  · simp [sleepSum, sleepMs, List.map_cons, List.sum_cons]
    rw [show (List.map sleepMs (timeoutTrace pid graceIterations)).sum
        = sleepSum (timeoutTrace pid graceIterations) from rfl,
      timeoutTrace_sleepSum]
    decide

theorem kill_sidecar_timeout_forced_once_witness :
    kill_sidecar true true (some { child := some 5, pid := some 7 }) (fun _ => true) =
      (none, Action.lockAcquire :: Action.sigterm 7 ::
        (timeoutTrace 7 graceIterations ++ [Action.kill 5, Action.lockRelease])) :=
  (kill_sidecar_timeout_forced_once { child := some 5, pid := some 7 } 7 5
    (fun _ => true) rfl rfl (fun _ _ => rfl)).1

/-- C5: when no PID was recorded, `kill_sidecar` skips the graceful
signal and the grace window entirely and degrades directly to the
forced kill via the exclusive handle, completing normally (the slot is
emptied and control returns); and every invocation that takes a
`SidecarProcess` from the slot completes with the slot emptied,
whatever the PID. -/
theorem kill_sidecar_no_pid_degrades (h : Nat) (alive : Nat → Bool) :
    kill_sidecar true true (some { child := some h, pid := none }) alive =
      (none, [Action.lockAcquire, Action.kill h, Action.lockRelease]) ∧
    ∀ p : SidecarProcess, (kill_sidecar true true (some p) alive).1 = none :=
  ⟨rfl, fun p => kill_sidecar_slot_none p alive⟩

/-- C9: the forwarding task emits exactly one log line per stdout event
of the child's output stream — the decoded content of that event's
bytes, in stream order — ignores other event kinds, and processes the
whole stream, stopping exactly when it ends. -/
theorem forwardLogs_verbatim (decode : List Nat → String) (evs : List CommandEvent) :
    forwardLogs decode evs =
      evs.filterMap (fun e =>
        match e with
        | CommandEvent.stdout bs => some (decode bs)
        | CommandEvent.other => none) ∧
    (forwardLogs decode evs).length =
      (evs.filter (fun e =>
        match e with
        | CommandEvent.stdout _ => true
        | CommandEvent.other => false)).length := by
  induction evs with
  | nil => exact ⟨rfl, rfl⟩
  | cons e evs ih =>
    cases e with
    | stdout bs =>
      refine ⟨?_, ?_⟩
      · simp [forwardLogs, List.filterMap_cons, ih.1]
      · simp [forwardLogs, List.filter_cons, ih.2]
    | other =>
      refine ⟨?_, ?_⟩
      · simp [forwardLogs, List.filterMap_cons, ih.1]
      · simp [forwardLogs, List.filter_cons, ih.2]

/-! ### Lemmas about the readiness prober and the heartbeat -/

lemma check_server_started_eventual (connects : Nat → Bool) :
    ∀ n idx fuel, (∀ i, i < n → connects (idx + i) = false) →
      connects (idx + n) = true → n < fuel →
      check_server_started connects fuel idx = (probeTrace n, true) := by
  intro n
  induction n with
  | zero =>
    intro idx fuel _ hn hf
    match fuel, hf with
    | f+1, _ =>
      have hc : connects idx = true := by simpa using hn
      simp [check_server_started, hc, probeTrace]
  | succ n ih =>
    intro idx fuel hlt hn hf
    match fuel, hf with
    | f+1, hf =>
      have hc : connects idx = false := by simpa using hlt 0 (Nat.succ_pos n)
      have hrest := ih (idx+1) f
        (fun i hi => by
          have := hlt (i+1) (by omega)
          simpa [Nat.add_assoc, Nat.add_comm 1 i] using this)
        (by have := hn; simpa [Nat.add_assoc, Nat.add_comm 1 n] using this)
        (by omega)
      simp [check_server_started, hc, hrest, probeTrace]

lemma check_server_started_forever (connects : Nat → Bool)
    (hno : ∀ i, connects i = false) :
    ∀ fuel idx, (check_server_started connects fuel idx).2 = false := by
  intro fuel
  induction fuel with
  | zero => intro idx; rfl
  | succ f ih => intro idx; simp [check_server_started, hno idx, ih (idx+1)]

lemma heartbeatConnectLoop_eventual (connectOk : Nat → Bool) :
    ∀ m idx fuel, (∀ i, i < m → connectOk (idx + i) = false) →
      connectOk (idx + m) = true → m < fuel →
      heartbeatConnectLoop connectOk fuel idx = (hbConnectTrace m, true) := by
  intro m
  induction m with
  | zero =>
    intro idx fuel _ hm hf
    match fuel, hf with
    | f+1, _ =>
      have hc : connectOk idx = true := by simpa using hm
      simp [heartbeatConnectLoop, hc, hbConnectTrace]
  | succ m ih =>
    intro idx fuel hlt hm hf
    match fuel, hf with
    | f+1, hf =>
      have hc : connectOk idx = false := by simpa using hlt 0 (Nat.succ_pos m)
      have hrest := ih (idx+1) f
        (fun i hi => by
          have := hlt (i+1) (by omega)
          simpa [Nat.add_assoc, Nat.add_comm 1 i] using this)
        (by have := hm; simpa [Nat.add_assoc, Nat.add_comm 1 m] using this)
        (by omega)
      simp [heartbeatConnectLoop, hc, hrest, hbConnectTrace]

lemma heartbeatWriteLoop_stops (writeOk : Nat → Bool) :
    ∀ n idx fuel, (∀ i, i < n → writeOk (idx + i) = true) →
      writeOk (idx + n) = false → n < fuel →
      heartbeatWriteLoop writeOk fuel idx = (hbWriteTrace n, true) := by
  intro n
  induction n with
  | zero =>
    intro idx fuel _ hn hf
    match fuel, hf with
    | f+1, _ =>
      have hc : writeOk idx = false := by simpa using hn
      simp [heartbeatWriteLoop, hc, hbWriteTrace]
  | succ n ih =>
    intro idx fuel hlt hn hf
    match fuel, hf with
    | f+1, hf =>
      have hc : writeOk idx = true := by simpa using hlt 0 (Nat.succ_pos n)
      have hrest := ih (idx+1) f
        (fun i hi => by
          have := hlt (i+1) (by omega)
          simpa [Nat.add_assoc, Nat.add_comm 1 i] using this)
        (by have := hn; simpa [Nat.add_assoc, Nat.add_comm 1 n] using this)
        (by omega)
      simp [heartbeatWriteLoop, hc, hrest, hbWriteTrace]

lemma heartbeatWriteLoop_forever (writeOk : Nat → Bool)
    (hall : ∀ i, writeOk i = true) :
    ∀ fuel idx, (heartbeatWriteLoop writeOk fuel idx).2 = false := by
  intro fuel
  induction fuel with
  | zero => intro idx; rfl
  | succ f ih => intro idx; simp [heartbeatWriteLoop, hall idx, ih (idx+1)]

/-- C7: the readiness wait returns only upon a successful TCP connect:
with the first success at attempt `n`, it performs exactly `n` failed
attempts each followed by a fixed-interval sleep and returns after the
successful one; if no attempt ever succeeds it loops forever (no fuel
makes it return); and whenever it returns, some connect succeeded.  No
error is surfaced — the only outcomes are success or still-looping. -/
theorem check_server_started_spec :
    (∀ connects : Nat → Bool, ∀ n fuel : Nat,
      (∀ i, i < n → connects i = false) → connects n = true → n < fuel →
      check_server_started connects fuel 0 = (probeTrace n, true)) ∧
    (∀ connects : Nat → Bool, (∀ i, connects i = false) →
      ∀ fuel idx, (check_server_started connects fuel idx).2 = false) ∧
    (∀ connects : Nat → Bool, ∀ fuel : Nat,
      (check_server_started connects fuel 0).2 = true → ∃ n, connects n = true) := by
  refine ⟨?_, check_server_started_forever, ?_⟩
  · intro connects n fuel hlt hn hf
    exact check_server_started_eventual connects n 0 fuel
      (fun i hi => by simpa using hlt i hi) (by simpa using hn) hf
  · intro connects fuel h
    by_contra hno
    push_neg at hno
    have : ∀ i, connects i = false := fun i => by
      cases hc : connects i with
      | false => rfl
      | true => exact absurd hc (hno i)
    rw [check_server_started_forever connects this fuel 0] at h
    cases h

theorem check_server_started_spec_witness :
    check_server_started (fun i => decide (3 ≤ i)) 5 0 = (probeTrace 3, true) :=
  check_server_started_spec.1 (fun i => decide (3 ≤ i)) 3 5
    (by decide) (by decide) (by decide)

/-- C8: the heartbeat task retries the socket connection at the fixed
interval until it succeeds (`m` failed attempts, each followed by an
interval sleep), then writes exactly one one-byte marker per interval;
at the first failed write it terminates, with no further writes, no
reconnection and no error propagated; and if no write ever fails the
write loop never terminates. -/
theorem start_heartbeat_spec (connectOk writeOk : Nat → Bool) (m n cFuel wFuel : Nat)
    (hcf : ∀ i, i < m → connectOk i = false) (hcs : connectOk m = true) (hcb : m < cFuel)
    (hwt : ∀ i, i < n → writeOk i = true) (hwf : writeOk n = false) (hwb : n < wFuel) :
    start_heartbeat connectOk writeOk cFuel wFuel =
      (hbConnectTrace m ++ hbWriteTrace n, true) ∧
    (∀ wOk : Nat → Bool, (∀ i, wOk i = true) →
      ∀ f idx, (heartbeatWriteLoop wOk f idx).2 = false) := by
  refine ⟨?_, heartbeatWriteLoop_forever⟩
  have hc := heartbeatConnectLoop_eventual connectOk m 0 cFuel
    (fun i hi => by simpa using hcf i hi) (by simpa using hcs) hcb
  have hw := heartbeatWriteLoop_stops writeOk n 0 wFuel
    (fun i hi => by simpa using hwt i hi) (by simpa using hwf) hwb
  simp [start_heartbeat, hc, hw]

theorem start_heartbeat_spec_witness :
    start_heartbeat (fun i => decide (2 ≤ i)) (fun i => decide (i < 3)) 4 5 =
      (hbConnectTrace 2 ++ hbWriteTrace 3, true) :=
  (start_heartbeat_spec (fun i => decide (2 ≤ i)) (fun i => decide (i < 3)) 2 3 4 5
    (by decide) (by decide) (by decide) (by decide) (by decide) (by decide)).1

/-- C6: a spawn failure is fatal to startup: `appStartup` aborts with
the spawn diagnostic, producing no running application (so the readiness
wait, the heartbeat task and the registered triggers never come into
existence); and a spawn failure is the only error that escapes — any
top-level startup error implies the spawn failed with that very
message. -/
theorem spawn_failure_fatal :
    (∀ decode : List Nat → String, ∀ m : String, ∀ connects : Nat → Bool, ∀ fuel : Nat,
      appStartup decode (SpawnResult.err m) connects fuel = Except.error m) ∧
    (∀ decode : List Nat → String, ∀ spawn : SpawnResult, ∀ connects : Nat → Bool,
      ∀ fuel : Nat, ∀ m : String,
      appStartup decode spawn connects fuel = Except.error m →
        spawn = SpawnResult.err m) := by
  constructor
  · intro decode m connects fuel; rfl
  · intro decode spawn connects fuel m h
    cases spawn with
    | ok pid hd evs =>
      rcases hpr : (check_server_started connects fuel 0).2 with _ | _ <;>
        simp [appStartup, start_server, hpr] at h
    | err m2 =>
      simp [appStartup, start_server] at h
      rw [h]

theorem spawn_failure_fatal_witness :
    appStartup (fun _ => "") (SpawnResult.err "spawn failed") (fun _ => true) 1 =
      Except.error "spawn failed" ∧
    SpawnResult.err "spawn failed" = SpawnResult.err "spawn failed" :=
  ⟨spawn_failure_fatal.1 (fun _ => "") "spawn failed" (fun _ => true) 1,
    spawn_failure_fatal.2 (fun _ => "") (SpawnResult.err "spawn failed") (fun _ => true) 1
      "spawn failed"
      (spawn_failure_fatal.1 (fun _ => "") "spawn failed" (fun _ => true) 1)⟩

/-- C10: when the shared state cannot be retrieved (`try_state` fails)
or the slot mutex is poisoned (`lock()` returns `Err`), `kill_sidecar`
returns silently: no protocol action is performed — no signal, no kill
— and the slot is left exactly as it was, with no failure reported. -/
theorem kill_sidecar_unavailable_noop (slot : Option SidecarProcess) (alive : Nat → Bool) :
    kill_sidecar false true slot alive = (slot, []) ∧
    kill_sidecar false false slot alive = (slot, []) ∧
    kill_sidecar true false slot alive = (slot, [Action.lockAcquire, Action.lockRelease]) ∧
    protocolCount (kill_sidecar true false slot alive).2 = 0 ∧
    protocolCount (kill_sidecar false true slot alive).2 = 0 :=
  ⟨rfl, rfl, rfl, rfl, rfl⟩

end ExTauri
